import Mathlib

/-!
Verification of the znc-admin settings/admin console modules.

This file gives a shallow embedding, in Lean 4, of the command console
implemented by the repository's C++ sources:

* `src/admin.cpp`, lines 1-2482: class CAdminMod (embedded below in
  namespace AdminMod);
* `src/admin.cpp`, lines 2483-3915: a second, settings-flavoured module
  (class CSettingsMod with per-setter modifier argument; embedded below in
  namespace SettingsVariant);
* `src/settings.cpp`: class CSettingsMod with descriptor permission flags
  and the CanModify gate (embedded below in namespace SettingsMod).

Host collaborators (the ZNC object model: CZNC, CUser, CIRCNetwork, CChan,
CString, CTable) are not part of the repository; they are modelled here at
the interface level used by the modules: users/networks/channels become
records, the ZNC string helpers (Token, Split, Equals, WildCmp) are
reimplemented following their documented ZNC semantics, and CTable output
is represented structurally as rows (the table renderer is host code).

All definitions are executable; theorems about the claims of the
specification follow the definitions.
-/

/-! ## ZNC string helpers

CString::Token(uPos, bRest = false, sSep = " ", bAllowEmpty = false):
with the defaults, consecutive separators are collapsed (empty tokens are
skipped); with bRest = true the remainder of the line starting at the
requested token is returned with its internal spacing intact.
-/

/-- Drop leading space characters. -/
def dropSp : List Char → List Char
  | [] => []
  | c :: cs => if c = ' ' then dropSp cs else c :: cs

/-- Drop one token (maximal run of non-space characters). -/
def dropTok : List Char → List Char
  | [] => []
  | c :: cs => if c = ' ' then c :: cs else dropTok cs

/-- The remainder of the character list starting at token `i`
(CString::Token(i, true) after the leading separators). -/
def tokRestL : Nat → List Char → List Char
  | 0, cs => dropSp cs
  | i + 1, cs => tokRestL i (dropTok (dropSp cs))

/-- CString::Token(i): the i-th whitespace-delimited token, "" if absent. -/
def token (s : String) (i : Nat) : String :=
  String.mk ((tokRestL i s.data).takeWhile (fun c => c ≠ ' '))

/-- CString::Token(i, true): the rest of the line from the i-th token on. -/
def tokenRest (s : String) (i : Nat) : String :=
  String.mk (tokRestL i s.data)

/-- ASCII lower-casing of a character (CString::AsLower / strcasecmp). -/
def lowerC (c : Char) : Char :=
  if 'A' ≤ c ∧ c ≤ 'Z' then Char.ofNat (c.toNat + 32) else c

/-- CString::Equals with its default CaseInsensitive comparison. -/
def eqCI (a b : String) : Bool :=
  a.data.map lowerC == b.data.map lowerC

/-- Wildcard matching (CString::WildCmp): '*' matches any run, '?' any one
character. Structural recursion on a fuel bound (every step shortens
pattern + text, so pattern length + text length + 1 steps always
suffice), keeping the function kernel-computable. -/
def wildFuel : Nat → List Char → List Char → Bool
  | 0, _, _ => false
  | _ + 1, [], [] => true
  | _ + 1, [], _ :: _ => false
  | f + 1, '*' :: ps, [] => wildFuel f ps []
  | f + 1, '*' :: ps, t :: ts => wildFuel f ps (t :: ts) || wildFuel f ('*' :: ps) ts
  | _ + 1, _ :: _, [] => false
  | f + 1, p :: ps, t :: ts => (p = '?' || p = t) && wildFuel f ps ts

/-- Wildcard matching at the sufficient fuel bound. -/
def wildL (ps ts : List Char) : Bool :=
  wildFuel (ps.length + ts.length + 1) ps ts

/-- name.WildCmp(pat, CString::CaseInsensitive): `pat` is the wildcard
pattern, `name` the matched text. -/
def wildCI (name pat : String) : Bool :=
  wildL (pat.data.map lowerC) (name.data.map lowerC)

/-- CString::Split(sep, out, false): split, dropping empty parts.
Splitter core, keeping empty chunks. -/
def splitKeep (sep : Char) : List Char → List (List Char)
  | [] => [[]]
  | c :: cs =>
    if c = sep then [] :: splitKeep sep cs
    else
      match splitKeep sep cs with
      | [] => [[c]]
      | h :: t => (c :: h) :: t

/-- CString::Split(sep, out, bAllowEmpty = false): non-empty parts only. -/
def splitDrop (sep : Char) (s : String) : List String :=
  ((splitKeep sep s.data).filter (fun l => l ≠ [])).map String.mk

/-- CString(sep).Join(begin, end). -/
def joinSep (sep : Char) : List String → String
  | [] => ""
  | [x] => x
  | x :: xs => x ++ String.mk [sep] ++ joinSep sep xs

/-- Lexicographic (byte-order) strict comparison of character lists,
modelling std::less<std::string>. -/
def ltL : List Char → List Char → Bool
  | [], [] => false
  | [], _ :: _ => true
  | _ :: _, [] => false
  | a :: as, b :: bs =>
    if a.toNat < b.toNat then true
    else if b.toNat < a.toNat then false
    else ltL as bs

/-- std::less<std::string> on strings. -/
def ltStr (a b : String) : Bool := ltL a.data b.data

/-- Insertion into a std::set<CString> (sorted unique, byte order),
modelling SCString. -/
def setInsert (s : String) : List String → List String
  | [] => [s]
  | h :: t =>
    if s = h then h :: t
    else if ltStr s h then s :: h :: t
    else h :: setInsert s t

/-! ## Host object model (interface level) -/

/-- CChan: the channel fields touched by the embedded descriptors. -/
structure Chan where
  cname : String
  key : String := ""
  deriving DecidableEq, Repr

/-- CIRCNetwork: name and channel list (FindChan is case-insensitive). -/
structure Network where
  nname : String
  chans : List Chan := []
  altNick : String := ""
  deriving DecidableEq, Repr

/-- CUser: the user fields touched by the embedded descriptors.
`allowedHosts` models the SCString (sorted std::set) of CUser. -/
structure User where
  uname : String
  isAdmin : Bool := false
  pass : String := ""
  allowedHosts : List String := []
  networks : List Network := []
  maxNetworks : Nat := 1
  denySetBindHost : Bool := false
  deriving DecidableEq, Repr

/-- CZNC: the global singleton state touched by the embedded descriptors;
also the user directory used by address resolution. -/
structure Znc where
  users : List User := []
  motd : List String := []
  deriving DecidableEq, Repr

/-- CZNC::FindUser: exact (case-sensitive) lookup in the user map. -/
def findUser (st : Znc) (s : String) : Option User :=
  st.users.find? (fun u => u.uname = s)

/-- CUser::FindNetwork: linear search with case-insensitive Equals. -/
def findNetwork (u : User) (s : String) : Option Network :=
  u.networks.find? (fun n => eqCI n.nname s)

/-- CIRCNetwork::FindChan: case-insensitive channel lookup. -/
def findChan (n : Network) (s : String) : Option Chan :=
  n.chans.find? (fun c => eqCI c.cname s)

/-- One line or one (structurally represented) table sent back to the
reply target; CTable rendering is host code, so a table is kept as its
rows (first column, second column). -/
inductive Out where
  | line (s : String)
  | table (rows : List (String × String))
  deriving DecidableEq, Repr

/-- The VarType enumeration shared by all three modules. -/
inductive VarType where
  | stringT | boolT | intT | doubleT | listT
  deriving DecidableEq, Repr

/-- VarTypes[]: display names of the value types. -/
def varTypeName : VarType → String
  | .stringT => "String"
  | .boolT => "Boolean"
  | .intT => "Integer"
  | .doubleT => "Double"
  | .listT => "List"

/-- CString(bool). -/
def boolStr (b : Bool) : String := if b then "true" else "false"

/-- CString::ToBool: true unless the trimmed lower-cased value is empty,
"0", "false", "off", "no" or "n". (ZNCString.cpp.) -/
def toBoolZ (s : String) : Bool :=
  let t := String.mk (s.data.map lowerC)
  !(t = "" || t = "0" || t = "false" || t = "off" || t = "no" || t = "n")

/-- CString::ToUInt (strtoul): leading spaces skipped, leading decimal
digits parsed, 0 when there are none. -/
def toUIntZ (s : String) : Nat :=
  ((s.data.dropWhile (fun c => c = ' ')).takeWhile Char.isDigit).foldl
    (fun n c => n * 10 + (c.toNat - 48)) 0

/-- The emission block shared, textually identically, by the Get, Set and
Reset handlers of all three modules: split the value on newlines
(dropping empty parts) and emit one "name = element" line each, or a
single "name = " line when the split is empty. -/
def emitVarLines (name value : String) : List Out :=
  match splitDrop '\n' value with
  | [] => [Out.line (name ++ " = ")]
  | vs => vs.map (fun s => Out.line (name ++ " = " ++ s))

/-! ## CAdminMod (src/admin.cpp, lines 1-2482)

Variable<T> holds get/set/reset closures; set/reset return a success flag
and may emit their own error lines (PutError inside the closure), so the
embedded closures return the new state together with emitted output.
Command<T> holds a syntax string (first token = verb) and an exec closure.
The verb handlers are C++ templates over the descriptor tables; they are
embedded as functions generic over the table, exactly as the templates
are, and the concrete tables instantiate them. -/

namespace AdminMod

/-- Result of a Variable<T>::set / ::reset closure. -/
structure SetRes (σ : Type) where
  ok : Bool
  st : σ
  outs : List Out := []
  deriving Repr

/-- Variable<T> of CAdminMod (admin.cpp lines 39-48). -/
structure AVar (σ : Type) where
  name : String
  vtype : VarType
  description : String
  varGet : σ → String
  varSet : σ → String → SetRes σ
  varReset : Option (σ → SetRes σ)

/-- Command<T> of CAdminMod (admin.cpp lines 50-56). -/
structure ACmd (σ : Type) where
  syntaxStr : String
  description : String
  exec : σ → String → List Out × σ

/-- The variable loop of OnGetCommand (admin.cpp 2188-2201): emissions and
the bFound flag. -/
def getLoop (pat : String) (t : σ) : List (AVar σ) → List Out × Bool
  | [] => ([], false)
  | v :: vs =>
    if wildCI v.name pat then
      let rest := getLoop pat t vs
      (emitVarLines v.name (v.varGet t) ++ rest.1, true)
    else getLoop pat t vs

/-- OnGetCommand (admin.cpp 2178-2205). -/
def OnGetCommand (vars : List (AVar σ)) (t : σ) (line : String) : List Out :=
  let sVar := token line 1
  if sVar = "" then [Out.line "Usage: Get <variable>"]
  else
    let r := getLoop sVar t vars
    if r.2 then r.1 else r.1 ++ [Out.line "Error: unknown variable"]

/-- The variable loop of OnSetCommand (admin.cpp 2218-2233): the state is
threaded through each matching variable's set closure in table order; a
successful set re-reads the value and emits it like Get. -/
def setLoop (pat sVal : String) : List (AVar σ) → σ → List Out × σ × Bool
  | [], t => ([], t, false)
  | v :: vs, t =>
    if wildCI v.name pat then
      let r := v.varSet t sVal
      let emitted := if r.ok then emitVarLines v.name (v.varGet r.st) else []
      let rest := setLoop pat sVal vs r.st
      (r.outs ++ emitted ++ rest.1, rest.2.1, true)
    else setLoop pat sVal vs t

/-- OnSetCommand (admin.cpp 2207-2237). -/
def OnSetCommand (vars : List (AVar σ)) (t : σ) (line : String) : List Out × σ :=
  let sVar := token line 1
  let sVal := tokenRest line 2
  if sVar = "" ∨ sVal = "" then ([Out.line "Usage: Set <variable> <value>"], t)
  else
    let r := setLoop sVar sVal vars t
    ((if r.2.2 then r.1 else r.1 ++ [Out.line "Error: unknown variable"]), r.2.1)

/-- The variable loop of OnResetCommand (admin.cpp 2249-2266). -/
def resetLoop (pat : String) : List (AVar σ) → σ → List Out × σ × Bool
  | [], t => ([], t, false)
  | v :: vs, t =>
    if wildCI v.name pat then
      match v.varReset with
      | none =>
        let rest := resetLoop pat vs t
        (Out.line "Error: reset not supported" :: rest.1, rest.2.1, true)
      | some f =>
        let r := f t
        let emitted := if r.ok then emitVarLines v.name (v.varGet r.st) else []
        let rest := resetLoop pat vs r.st
        (r.outs ++ emitted ++ rest.1, rest.2.1, true)
    else resetLoop pat vs t

/-- OnResetCommand (admin.cpp 2239-2270). -/
def OnResetCommand (vars : List (AVar σ)) (t : σ) (line : String) : List Out × σ :=
  let sVar := token line 1
  if sVar = "" then ([Out.line "Usage: Reset <variable>"], t)
  else
    let r := resetLoop sVar vars t
    ((if r.2.2 then r.1 else r.1 ++ [Out.line "Error: unknown variable"]), r.2.1)

/-- OnExecCommand (admin.cpp 2272-2286): first command whose verb token
equals (case-insensitively) the first token of the line. -/
def OnExecCommand (cmds : List (ACmd σ)) (t : σ) (line : String) : List Out × σ :=
  let sCmd := token line 0
  let sArgs := tokenRest line 1
  match cmds.find? (fun c => eqCI (token c.syntaxStr 0) sCmd) with
  | some c => c.exec t sArgs
  | none => ([Out.line "Error: unknown command"], t)

/-- Insertion into a std::map<CString, CString> (sorted by key, replacing
on equal key), modelling mCommands of FilterCmdTable. -/
def mapInsert (k v : String) : List (String × String) → List (String × String)
  | [] => [(k, v)]
  | (k', v') :: t =>
    if k = k' then (k, v) :: t
    else if ltStr k k' then (k, v) :: (k', v') :: t
    else (k', v') :: mapInsert k v t

/-- FilterCmdTable (admin.cpp 2390-2423): reserved-verb rows plus the
command table, filtered, assembled through a sorted map. -/
def filterCmdRows (cmds : List (ACmd σ)) (f : String) : List (String × String) :=
  let m : List (String × String) := []
  let m := if f = "" || wildCI "Get" f then
    mapInsert "Get <variable>" "Gets the value of a variable." m else m
  let m := if f = "" || wildCI "Help" f then
    mapInsert "Help [filter]" "Generates this output." m else m
  let m := if f = "" || wildCI "List" f then
    mapInsert "List [filter]" "Lists available variables filtered by name or type." m else m
  let m := if f = "" || wildCI "Reset" f then
    mapInsert "Reset <variable>" "Resets the value of a variable." m else m
  let m := if f = "" || wildCI "Set" f then
    mapInsert "Set <variable> <value>" "Sets the value of a variable." m else m
  cmds.foldl (fun m c =>
    let sCmd := token c.syntaxStr 0
    if f = "" || sCmd.startsWith f || wildCI sCmd f then
      mapInsert c.syntaxStr c.description m
    else m) m

/-- OnHelpCommand (admin.cpp 2154-2164). -/
def OnHelpCommand (cmds : List (ACmd σ)) (line : String) : List Out :=
  let f := token line 1
  let rows := filterCmdRows cmds f
  if rows ≠ [] then [Out.table rows] else [Out.line ("No matches for '" ++ f ++ "'")]

/-- FilterVarTable (admin.cpp 2425-2442): rows for the variables whose
name or type matches the filter. -/
def filterVarRows (vars : List (AVar σ)) (f : String) : List (String × String) :=
  (vars.filter (fun v =>
      f = "" || eqCI (varTypeName v.vtype) f || v.name.startsWith f || wildCI v.name f)).map
    (fun v => (v.name ++ " (" ++ varTypeName v.vtype ++ ")", v.description))

/-- OnListCommand (admin.cpp 2166-2176). -/
def OnListCommand (vars : List (AVar σ)) (line : String) : List Out :=
  let rows := filterVarRows vars (token line 1)
  if rows ≠ [] then [Out.table rows] else [Out.line "Error: unknown variable"]

end AdminMod

namespace AdminMod

/-! Concrete descriptors of CAdminMod used by the theorems below. The
full C++ tables hold further variables; those embedded here are the ones
the verified claims are about, with their table-neighbour relationships
(registry order, unique names) preserved for the slices used. -/

/-- UserVars "Admin" (admin.cpp 327-341): note that, unlike the
settings.cpp variant, the setter performs no permission check. -/
def advAdmin : AVar User :=
  { name := "Admin", vtype := .boolT,
    description := "Whether the user has admin rights.",
    varGet := fun u => boolStr u.isAdmin,
    varSet := fun u v => { ok := true, st := { u with isAdmin := toBoolZ v } },
    varReset := some (fun u => { ok := true, st := { u with isAdmin := false } }) }

/-- UserVars "Allow" (admin.cpp 357-375): the value is split on spaces and
each host inserted into the user's allowed-host set (SCString, a sorted
std::set); the getter joins the set in its sorted iteration order. -/
def advAllow : AVar User :=
  { name := "Allow", vtype := .listT,
    description := "The list of allowed IPs for the user. Wildcards (*) are supported.",
    varGet := fun u => joinSep '\n' u.allowedHosts,
    varSet := fun u v =>
      { ok := true,
        st := { u with allowedHosts :=
          (splitDrop ' ' v).foldl (fun hs h => setInsert h hs) u.allowedHosts } },
    varReset := some (fun u => { ok := true, st := { u with allowedHosts := [] } }) }

/-- GlobalVars "Motd" (admin.cpp 177-192): AddMotd appends to the VCString
(vector) of MOTD lines; the getter joins them with newlines; the resetter
clears the vector. -/
def advMotd : AVar Znc :=
  { name := "Motd", vtype := .listT,
    description := "The list of 'message of the day' lines that are sent to clients on connect via notice from *status.",
    varGet := fun st => joinSep '\n' st.motd,
    varSet := fun st v => { ok := true, st := { st with motd := st.motd ++ [v] } },
    varReset := some (fun st => { ok := true, st := { st with motd := [] } }) }

/-- std::string(s, count) applied to the 2-byte array of the literal ".":
defined for count ≤ 2 (yielding the first count of the characters
'.', NUL), undefined behaviour (None) beyond, because the constructor
copies exactly count bytes from the array. -/
def cstrFromDotLit (n : Nat) : Option String :=
  if n ≤ 2 then some (String.mk (List.take n ['.', Char.ofNat 0])) else none

/-- UserVars "Password" getter (admin.cpp 730-732, likewise 3070-3072):
return CString(".", pUser->GetPass().size()). CString(const char*, size_t)
is std::string(const char*, size_t), so the call copies size() bytes out
of the two-byte literal "." rather than producing size() dots. -/
def advPasswordGet (u : User) : Option String :=
  cstrFromDotLit u.pass.length

/-- OnUserCommand (admin.cpp 2079-2102): cross-user ownership gate, then
the verb dispatch. Generic over the UserVars/UserCmds tables exactly as
the C++ verb handlers are generic over theirs. -/
def OnUserCommand (uvars : List (AVar User)) (ucmds : List (ACmd User))
    (me target : User) (line : String) : List Out × User :=
  let sCmd := token line 0
  if target.uname ≠ me.uname ∧ me.isAdmin = false then
    ([Out.line "Error: access denied"], target)
  else if eqCI sCmd "Help" then (OnHelpCommand ucmds line, target)
  else if eqCI sCmd "List" then (OnListCommand uvars line, target)
  else if eqCI sCmd "Get" then (OnGetCommand uvars target line, target)
  else if eqCI sCmd "Set" then OnSetCommand uvars target line
  else if eqCI sCmd "Reset" then OnResetCommand uvars target line
  else OnExecCommand ucmds target line

/-- OnNetworkCommand (admin.cpp 2104-2127): the gate compares the
network's owning user against the principal. -/
def OnNetworkCommand (nvars : List (AVar Network)) (ncmds : List (ACmd Network))
    (me : User) (owner : String) (target : Network) (line : String) : List Out × Network :=
  let sCmd := token line 0
  if owner ≠ me.uname ∧ me.isAdmin = false then
    ([Out.line "Error: access denied"], target)
  else if eqCI sCmd "Help" then (OnHelpCommand ncmds line, target)
  else if eqCI sCmd "List" then (OnListCommand nvars line, target)
  else if eqCI sCmd "Get" then (OnGetCommand nvars target line, target)
  else if eqCI sCmd "Set" then OnSetCommand nvars target line
  else if eqCI sCmd "Reset" then OnResetCommand nvars target line
  else OnExecCommand ncmds target line

/-- OnChanCommand (admin.cpp 2129-2152): the gate compares the channel's
network's owning user against the principal. -/
def OnChanCommand (cvars : List (AVar Chan)) (ccmds : List (ACmd Chan))
    (me : User) (owner : String) (target : Chan) (line : String) : List Out × Chan :=
  let sCmd := token line 0
  if owner ≠ me.uname ∧ me.isAdmin = false then
    ([Out.line "Error: access denied"], target)
  else if eqCI sCmd "Help" then (OnHelpCommand ccmds line, target)
  else if eqCI sCmd "List" then (OnListCommand cvars line, target)
  else if eqCI sCmd "Get" then (OnGetCommand cvars target line, target)
  else if eqCI sCmd "Set" then OnSetCommand cvars target line
  else if eqCI sCmd "Reset" then OnResetCommand cvars target line
  else OnExecCommand ccmds target line

end AdminMod

/-! ## Address resolution (CAdminMod::OnUserRaw, admin.cpp 2008-2073)

The resolution result: dispatch into a scope handler, halt with an error
line, or fall through (CONTINUE, the token is not for this module). The
scope carries its owning user's name, as the handlers' ownership gates
read it off the resolved host object. -/

/-- The scope a target token resolves to. -/
inductive Resolved where
  | user (u : User)
  | net (owner : String) (n : Network)
  | chan (owner : String) (netName : String) (c : Chan)
  deriving DecidableEq, Repr

/-- Outcome of OnUserRaw target resolution. -/
inductive RawResult where
  | dispatch (r : Resolved)
  | halted (errMsg : String)
  | passthrough
  deriving DecidableEq, Repr

namespace AdminMod

/-- The slash-composite block of OnUserRaw (admin.cpp 2024-2073): 2- and
3-segment forms; none means the block fell through to CONTINUE. -/
def compositeResolve (st : Znc) (me : User) (cn : Option Network) :
    List String → Option RawResult
  | [a, b] =>
    match findUser st a with
    | some u =>
      some (match findNetwork u b with
        | some n => RawResult.dispatch (.net u.uname n)
        | none =>
          let viaCurrent : Option RawResult :=
            if u.uname = me.uname then
              match cn with
              | some n0 =>
                match findChan n0 b with
                | some c => some (.dispatch (.chan me.uname n0.nname c))
                | none => none
              | none => none
            else none
          match viaCurrent with
          | some r => r
          | none =>
            match u.networks with
            | [n1] =>
              match findChan n1 b with
              | some c => RawResult.dispatch (.chan u.uname n1.nname c)
              | none => .halted "unknown (or ambiguous) network or channel"
            | _ => .halted "unknown (or ambiguous) network or channel")
    | none =>
      match findNetwork me a with
      | some n =>
        some (match findChan n b with
          | some c => RawResult.dispatch (.chan me.uname n.nname c)
          | none => .halted "unknown channel")
      | none => none
  | [a, b, c] =>
    match findUser st a with
    | some u =>
      some (match findNetwork u b with
        | some n =>
          match findChan n c with
          | some ch => RawResult.dispatch (.chan u.uname n.nname ch)
          | none => .halted "unknown channel"
        | none => .halted "unknown network")
    | none => none
  | _ => none

/-- Target resolution of OnUserRaw (admin.cpp 2008-2073), after the
status-prefix + infix has been stripped from the query target. `me` is
GetUser(), `cn` is GetNetwork(). -/
def resolveTarget (st : Znc) (me : User) (cn : Option Network) (tgt : String) : RawResult :=
  if eqCI tgt "user" then .dispatch (.user me)
  else match findUser st tgt with
  | some u => .dispatch (.user u)
  | none =>
    match (if eqCI tgt "network" then cn else none) with
    | some n => .dispatch (.net me.uname n)
    | none =>
      match findNetwork me tgt with
      | some n => .dispatch (.net me.uname n)
      | none =>
        match (match cn with
          | some n0 => (findChan n0 tgt).map (fun c => (n0, c))
          | none => none) with
        | some (n0, c) => .dispatch (.chan me.uname n0.nname c)
        | none =>
          match compositeResolve st me cn (splitDrop '/' tgt) with
          | some r => r
          | none => .passthrough

end AdminMod

/-! ## CSettingsMod of src/settings.cpp

Variables carry permission flags (enum VarFlag { NoFlags, RequiresAdmin,
RequiresSetBindHost } used as a bitmask over an unsigned); setters and
resetters report failure through a returned sError string, printed by the
caller. CanModify (settings.cpp 96-104) gates Set/Reset per variable. -/

namespace SettingsMod

/-- VarFlag values as bits of the unsigned VarFlags. -/
def requiresAdmin : Nat := 1

/-- VarFlag RequiresSetBindHost. -/
def requiresSetBindHost : Nat := 2

/-- Variable<T> of settings.cpp (lines 84-94). -/
structure SVar (σ : Type) where
  name : String
  vtype : VarType
  flags : Nat
  description : String
  getter : σ → String
  setter : σ → String → Bool × σ × String
  resetter : Option (σ → Bool × σ × String)

/-- CanModify (settings.cpp 96-104). -/
def CanModify (u : User) (flags : Nat) : Bool :=
  if !u.isAdmin && (flags &&& requiresAdmin ≠ 0) then false
  else if !u.isAdmin && u.denySetBindHost && (flags &&& requiresSetBindHost ≠ 0) then false
  else true

/-- The variable loop of settings.cpp OnSetCommand (1402-1422): the
CanModify gate, then the setter; failures print "Error: access denied"
or the returned sError and processing continues with the next match. -/
def setLoop (me : User) (pat sVal : String) : List (SVar σ) → σ → List Out × σ × Bool
  | [], t => ([], t, false)
  | v :: vs, t =>
    if wildCI v.name pat then
      let res : List Out × σ :=
        if !(CanModify me v.flags) then ([Out.line "Error: access denied"], t)
        else
          match v.setter t sVal with
          | (false, t', err) => ([Out.line err], t')
          | (true, t', _) => (emitVarLines v.name (v.getter t'), t')
      let rest := setLoop me pat sVal vs res.2
      (res.1 ++ rest.1, rest.2.1, true)
    else setLoop me pat sVal vs t

/-- OnSetCommand (settings.cpp 1391-1426); `me` is GetUser(). -/
def OnSetCommand (me : User) (vars : List (SVar σ)) (t : σ) (line : String) :
    List Out × σ :=
  let sVar := token line 1
  let sVal := tokenRest line 2
  if sVar = "" ∨ sVal = "" then ([Out.line "Usage: Set <variable> <value>"], t)
  else
    let r := setLoop me sVar sVal vars t
    ((if r.2.2 then r.1 else r.1 ++ [Out.line "Unknown variable!"]), r.2.1)

/-- UserVars "Admin" of settings.cpp (288-302): flagged RequiresAdmin. -/
def svAdmin : SVar User :=
  { name := "Admin", vtype := .boolT, flags := requiresAdmin,
    description := "Whether the user has admin rights.",
    getter := fun u => boolStr u.isAdmin,
    setter := fun u v => (true, { u with isAdmin := toBoolZ v }, ""),
    resetter := some (fun u => (true, { u with isAdmin := false }, "")) }

/-- UserVars "Allow" of settings.cpp (304-321): NoFlags. -/
def svAllow : SVar User :=
  { name := "Allow", vtype := .listT, flags := 0,
    description := "The list of allowed IPs for the user. Wildcards (*) are supported.",
    getter := fun u => joinSep '\n' u.allowedHosts,
    setter := fun u v =>
      (true,
       { u with allowedHosts :=
          (splitDrop ' ' v).foldl (fun hs h => setInsert h hs) u.allowedHosts },
       ""),
    resetter := some (fun u => (true, { u with allowedHosts := [] }, "")) }

end SettingsMod

/-! ## The CSettingsMod variant inside admin.cpp (lines 2483-3915)

Its Variable<T> (2518-2527) passes the acting principal (pModifier =
GetUser()) into every setter/resetter; there is no CanModify gate, each
closure does its own checking. OnSetCommand (3766-3799) prints failures
as PutError(sTgt, sError), i.e. "Error: " + sError. -/

namespace SettingsVariant

/-- Variable<T> of the admin.cpp settings variant (2518-2527). -/
structure VVar (σ : Type) where
  name : String
  vtype : VarType
  description : String
  getter : σ → String
  setter : User → σ → String → Bool × σ × String
  resetter : Option (User → σ → Bool × σ × String)

/-- The variable loop of OnGetCommand (admin.cpp 3747-3760). -/
def getLoop (pat : String) (t : σ) : List (VVar σ) → List Out × Bool
  | [] => ([], false)
  | v :: vs =>
    if wildCI v.name pat then
      let rest := getLoop pat t vs
      (emitVarLines v.name (v.getter t) ++ rest.1, true)
    else getLoop pat t vs

/-- OnGetCommand (admin.cpp 3737-3764). -/
def OnGetCommand (vars : List (VVar σ)) (t : σ) (line : String) : List Out :=
  let sVar := token line 1
  if sVar = "" then [Out.line "Usage: Get <variable>"]
  else
    let r := getLoop sVar t vars
    if r.2 then r.1 else r.1 ++ [Out.line "Error: unknown variable"]

/-- The variable loop of OnSetCommand (admin.cpp 3778-3795): each
matching variable's setter is applied to the state left by the previous
one; a failure prints "Error: " + sError and the loop continues. -/
def setLoop (me : User) (pat sVal : String) : List (VVar σ) → σ → List Out × σ × Bool
  | [], t => ([], t, false)
  | v :: vs, t =>
    if wildCI v.name pat then
      let res : List Out × σ :=
        match v.setter me t sVal with
        | (false, t', err) => ([Out.line ("Error: " ++ err)], t')
        | (true, t', _) => (emitVarLines v.name (v.getter t'), t')
      let rest := setLoop me pat sVal vs res.2
      (res.1 ++ rest.1, rest.2.1, true)
    else setLoop me pat sVal vs t

/-- OnSetCommand (admin.cpp 3766-3799). -/
def OnSetCommand (me : User) (vars : List (VVar σ)) (t : σ) (line : String) :
    List Out × σ :=
  let sVar := token line 1
  let sVal := tokenRest line 2
  if sVar = "" ∨ sVal = "" then ([Out.line "Usage: Set <variable> <value>"], t)
  else
    let r := setLoop me sVar sVal vars t
    ((if r.2.2 then r.1 else r.1 ++ [Out.line "Error: unknown variable"]), r.2.1)

/-- UserVars "Admin" of the variant (admin.cpp 2739-2753): the setter
ignores pModifier - no permission check. -/
def vvAdmin : VVar User :=
  { name := "Admin", vtype := .boolT,
    description := "Whether the user has admin rights.",
    getter := fun u => boolStr u.isAdmin,
    setter := fun _ u v => (true, { u with isAdmin := toBoolZ v }, ""),
    resetter := some (fun _ u => (true, { u with isAdmin := false }, "")) }

/-- UserVars "MaxNetworks" of the variant (admin.cpp 2984-3006): the
setter fails with "access denied" unless pModifier is an admin. -/
def vvMaxNetworks : VVar User :=
  { name := "MaxNetworks", vtype := .intT,
    description := "The maximum number of networks the user is allowed to have.",
    getter := fun u => toString u.maxNetworks,
    setter := fun m u v =>
      if !m.isAdmin then (false, u, "access denied")
      else (true, { u with maxNetworks := toUIntZ v }, ""),
    resetter := some (fun m u =>
      if !m.isAdmin then (false, u, "access denied")
      else (true, { u with maxNetworks := 1 }, "")) }

end SettingsVariant

/-! ## Restart and Shutdown (admin.cpp GlobalCmds 1416-1433, 1444-1461)

The exec closures of the two fatal commands, modelled with the outcome of
CZNC::WriteConfig as an environment bit; throwing
CException(EX_Restart/EX_Shutdown) is modelled as the fatal field. -/

/-- The two process-terminating exception kinds. -/
inductive FatalKind where
  | restart | shutdown
  deriving DecidableEq, Repr

/-- Host environment: whether CZNC::WriteConfig() succeeds. -/
structure ZncEnv where
  writeOk : Bool
  deriving DecidableEq, Repr

/-- Observable effect of one GlobalCmds exec invocation. -/
structure CmdEffect where
  attemptedWrite : Bool
  outs : List Out
  broadcast : Option String
  fatal : Option FatalKind
  deriving DecidableEq, Repr

/-- GlobalCmds "Restart" (admin.cpp 1416-1433). WriteConfig() is invoked
unconditionally; only its result is tested together with --force. -/
def restartExec (env : ZncEnv) (args : String) : CmdEffect :=
  let bForce := eqCI (token args 0) "--force"
  let msg0 := tokenRest args (if bForce then 1 else 0)
  let msg := if msg0 = "" then "ZNC is being restarted NOW!" else msg0
  if env.writeOk = false ∧ bForce = false then
    { attemptedWrite := true,
      outs := [Out.line "Error: saving config failed",
               Out.line "Aborting. Use --force to ignore."],
      broadcast := none, fatal := none }
  else
    { attemptedWrite := true, outs := [], broadcast := some msg,
      fatal := some .restart }

/-- GlobalCmds "Shutdown" (admin.cpp 1444-1461). -/
def shutdownExec (env : ZncEnv) (args : String) : CmdEffect :=
  let bForce := eqCI (token args 0) "--force"
  let msg0 := tokenRest args (if bForce then 1 else 0)
  let msg := if msg0 = "" then "ZNC is being shut down NOW!" else msg0
  if env.writeOk = false ∧ bForce = false then
    { attemptedWrite := true,
      outs := [Out.line "Error: saving config failed",
               Out.line "Aborting. Use --force to ignore."],
      broadcast := none, fatal := none }
  else
    { attemptedWrite := true, outs := [], broadcast := some msg,
      fatal := some .shutdown }

/-- The verbs of CAdminMod's GlobalCmds (admin.cpp 1155-1508), each
paired with whether its exec body contains a throw of the fatal
CException (the repository's only two throw statements are in Restart,
line 1430, and Shutdown, line 1458). -/
def adminGlobalCmdFatal : List (String × Bool) :=
  [("AddPort", false), ("AddUser", false), ("Broadcast", false),
   ("DelPort", false), ("DelUser", false), ("ListMods", false),
   ("ListUsers", false), ("ListPorts", false), ("LoadMod", false),
   ("Rehash", false), ("ReloadMod", false), ("Restart", true),
   ("SaveConfig", false), ("Shutdown", true), ("Traffic", false),
   ("UnloadMod", false), ("UpdateMod", false)]

/-! ## Specification-side definitions

Definitions in this section are written from the specification's words
(not from the source) solely to be compared against the source-derived
definitions above. -/

/-- Modelled from the spec (section 4.1 step 1 and claim C2): the
resolver tries both self-keywords first, then the user directory, the
caller's networks, the current network's channels, and only then the
composite forms. Differs from resolveTarget only in the place of the
"network" keyword. -/
def specResolveClaimOrder (st : Znc) (me : User) (cn : Option Network)
    (tgt : String) : RawResult :=
  if eqCI tgt "user" then .dispatch (.user me)
  else match (if eqCI tgt "network" then cn else none) with
  | some n => .dispatch (.net me.uname n)
  | none =>
    match findUser st tgt with
    | some u => .dispatch (.user u)
    | none =>
      match findNetwork me tgt with
      | some n => .dispatch (.net me.uname n)
      | none =>
        match (match cn with
          | some n0 => (findChan n0 tgt).map (fun c => (n0, c))
          | none => none) with
        | some (n0, c) => .dispatch (.chan me.uname n0.nname c)
        | none =>
          match AdminMod.compositeResolve st me cn (splitDrop '/' tgt) with
          | some r => r
          | none => .passthrough

/-- First hit of a prioritised candidate list. -/
def firstSome : List (Option α) → Option α
  | [] => none
  | some a :: _ => some a
  | none :: t => firstSome t

/-- The single-token interpretations of resolveTarget as a prioritised
candidate list, in the order the code consults them, followed by the
composite block. -/
def adminResolveSteps (st : Znc) (me : User) (cn : Option Network)
    (tgt : String) : List (Option RawResult) :=
  [ if eqCI tgt "user" then some (.dispatch (.user me)) else none,
    (findUser st tgt).map (fun u => .dispatch (.user u)),
    (if eqCI tgt "network" then cn else none).map (fun n => .dispatch (.net me.uname n)),
    (findNetwork me tgt).map (fun n => .dispatch (.net me.uname n)),
    (match cn with
      | some n0 => (findChan n0 tgt).map (fun c => RawResult.dispatch (.chan me.uname n0.nname c))
      | none => none),
    AdminMod.compositeResolve st me cn (splitDrop '/' tgt) ]

/-- Modelled from the spec (claim C6): for a 2-segment address [A, B]
where A names the known user `u` that owns no network named B, B is
searched as a channel first on the caller's current network (only when u
is the caller's own user), then on u's single network when u owns exactly
one; otherwise the resolution fails as ambiguous-or-unknown. -/
def specTwoSegChanSearch (me : User) (cn : Option Network) (u : User)
    (b : String) : RawResult :=
  match (if u.uname = me.uname then cn else none).bind
      (fun n0 => (findChan n0 b).map (fun c => (n0, c))) with
  | some (n0, c) => .dispatch (.chan me.uname n0.nname c)
  | none =>
    match u.networks with
    | [n1] =>
      match findChan n1 b with
      | some c => .dispatch (.chan u.uname n1.nname c)
      | none => .halted "unknown (or ambiguous) network or channel"
    | _ => .halted "unknown (or ambiguous) network or channel"

/-- Modelled from the spec (claim C10): the password mask - one '.' per
character of the stored hash. -/
def specDotMask (n : Nat) : String :=
  String.mk (List.replicate n '.')

/-! ## Concrete fixtures used by the claim theorems -/

/-- A non-admin user with default fields. -/
def uAlice : User := { uname := "alice" }

/-- An admin user. -/
def uRoot : User := { uname := "root", isAdmin := true }

/-- A channel. -/
def chZnc : Chan := { cname := "#znc" }

/-- A network carrying #znc. -/
def nFreenode : Network := { nname := "freenode", chans := [chZnc] }

/-- A second, channel-less network. -/
def nOftc : Network := { nname := "oftc" }

/-- alice with exactly one network. -/
def uAliceOne : User := { uname := "alice", networks := [nFreenode] }

/-- alice after a second network was added. -/
def uAliceTwo : User := { uname := "alice", networks := [nFreenode, nOftc] }

/-- A directory containing a user literally named "network". -/
def stDirNet : Znc := { users := [{ uname := "network" }] }

/-! ## Claim theorems -/

/-- C1. The claim states that Set Admin from a non-admin fails with
access-denied on every user scope including the principal's own, and
succeeds for an admin. settings.cpp implements exactly that (the Admin
variable is flagged RequiresAdmin and gated by CanModify, conjuncts 2 and
3), but CAdminMod's Admin setter (admin.cpp 327-341) performs no check:
the only gate on the user-scope path is the cross-user comparison in
OnUserCommand (admin.cpp 2083), which passes for the principal's own
scope, so a non-admin's "Set Admin true" on their own user succeeds and
promotes them (conjunct 1) - the failing input of the code bug. -/
theorem c1_set_admin_code_bug :
    AdminMod.OnUserCommand [AdminMod.advAdmin, AdminMod.advAllow] [] uAlice uAlice
        "Set Admin true"
      = ([Out.line "Admin = true"], { uAlice with isAdmin := true }) ∧
    SettingsMod.OnSetCommand uAlice [SettingsMod.svAdmin, SettingsMod.svAllow] uAlice
        "Set Admin true"
      = ([Out.line "Error: access denied"], uAlice) ∧
    SettingsMod.OnSetCommand uRoot [SettingsMod.svAdmin, SettingsMod.svAllow] uAlice
        "Set Admin true"
      = ([Out.line "Admin = true"], { uAlice with isAdmin := true }) := by
  decide

/-- C10. The claim states the Password getter returns a run of '.' of the
stored hash's length. The code (admin.cpp 730-732 and 3070-3072) builds
CString(".", pass.size()), i.e. std::string(const char*, size_t), which
copies size() bytes from the two-byte array of the literal ".": for a
2-character hash the result is '.' followed by NUL, not "..", and for
longer hashes the read runs past the array - undefined behaviour (modelled
as none). The intended mask (specDotMask) is what the claim describes. -/
theorem c10_password_mask_code_bug :
    AdminMod.advPasswordGet { uname := "u", pass := "ab" }
      = some (String.mk ['.', Char.ofNat 0]) ∧
    AdminMod.advPasswordGet { uname := "u", pass := "ab" } ≠ some (specDotMask 2) ∧
    AdminMod.advPasswordGet { uname := "u", pass := "abc" } = none := by
  decide

/-- C2, counterexample. The claim puts both self-keywords before the
user-directory lookup. In the code (admin.cpp 2008-2018) the "network"
keyword is only consulted after CZNC::FindUser, so when a user literally
named "network" exists, the token "network" resolves to that user's
scope, while the claim's order resolves it to the caller's own current
network. -/
theorem c2_priority_counterexample :
    AdminMod.resolveTarget stDirNet uAliceOne (some nFreenode) "network"
      = .dispatch (.user { uname := "network" }) ∧
    specResolveClaimOrder stDirNet uAliceOne (some nFreenode) "network"
      = .dispatch (.net "alice" nFreenode) ∧
    AdminMod.resolveTarget stDirNet uAliceOne (some nFreenode) "network"
      ≠ specResolveClaimOrder stDirNet uAliceOne (some nFreenode) "network" := by
  decide

/-- C3. The dispatch gate of the three scope handlers (admin.cpp
2083-2086, 2108-2111, 2133-2136): when the resolved scope's owning user
differs from the acting principal and the principal is not an admin, the
handler replies "Error: access denied" and halts with the scope state
untouched, whatever the command line (so no verb - Help, List, Get, Set,
Reset or custom - runs), for every variable and command table. -/
theorem c3_foreign_scope_gate
    (uvars : List (AdminMod.AVar User)) (ucmds : List (AdminMod.ACmd User))
    (nvars : List (AdminMod.AVar Network)) (ncmds : List (AdminMod.ACmd Network))
    (cvars : List (AdminMod.AVar Chan)) (ccmds : List (AdminMod.ACmd Chan))
    (me ut : User) (owner : String) (nt : Network) (ct : Chan) (line : String)
    (hadmin : me.isAdmin = false) :
    (ut.uname ≠ me.uname →
      AdminMod.OnUserCommand uvars ucmds me ut line
        = ([Out.line "Error: access denied"], ut)) ∧
    (owner ≠ me.uname →
      AdminMod.OnNetworkCommand nvars ncmds me owner nt line
        = ([Out.line "Error: access denied"], nt)) ∧
    (owner ≠ me.uname →
      AdminMod.OnChanCommand cvars ccmds me owner ct line
        = ([Out.line "Error: access denied"], ct)) := by
  refine ⟨fun h => ?_, fun h => ?_, fun h => ?_⟩ <;>
    simp [AdminMod.OnUserCommand, AdminMod.OnNetworkCommand, AdminMod.OnChanCommand,
      h, hadmin]

/-- C3 witness: the gate applied to a concrete foreign-user scope. -/
theorem c3_foreign_scope_gate_witness :
    AdminMod.OnUserCommand [AdminMod.advAdmin] [] uAlice { uname := "bob" } "Get Admin"
      = ([Out.line "Error: access denied"], { uname := "bob" }) :=
  (c3_foreign_scope_gate [AdminMod.advAdmin] [] [] [] [] [] uAlice { uname := "bob" }
    "bob" nOftc chZnc "Get Admin" rfl).1 (by decide)

/-- C5, counterexample. The claim says that once a second network is
added to the caller's user, the bare channel token no longer resolves and
is reported unknown/ambiguous. In the code (admin.cpp 2020-2022) the bare
token is looked up only on GetNetwork(), the caller's current network, so
with two networks the very same token still resolves to the same channel
and no error is emitted. -/
theorem c5_bare_chan_counterexample :
    AdminMod.resolveTarget { users := [uAliceTwo] } uAliceTwo (some nFreenode) "#znc"
      = .dispatch (.chan "alice" "freenode" chZnc) ∧
    ∀ e, AdminMod.resolveTarget { users := [uAliceTwo] } uAliceTwo (some nFreenode) "#znc"
      ≠ RawResult.halted e := by
  have h : AdminMod.resolveTarget { users := [uAliceTwo] } uAliceTwo (some nFreenode) "#znc"
      = .dispatch (.chan "alice" "freenode" chZnc) := by decide
  exact ⟨h, fun e he => by rw [h] at he; cases he⟩

/-- C5, amended: a bare (slash-free) channel-name token that misses the
self-keywords, the user directory and the caller's network names resolves
through the caller's current network alone; in particular the caller's
network list - and hence adding a second network - does not affect it, as
long as the new network's name does not equal the token. -/
theorem c5_bare_chan_amended (st : Znc) (me : User) (n0 : Network) (tgt : String)
    (c : Chan)
    (h1 : eqCI tgt "user" = false)
    (h2 : findUser st tgt = none)
    (h3 : eqCI tgt "network" = false)
    (h4 : findNetwork me tgt = none)
    (h5 : findChan n0 tgt = some c) :
    AdminMod.resolveTarget st me (some n0) tgt
      = .dispatch (.chan me.uname n0.nname c) ∧
    ∀ n2, eqCI n2.nname tgt = false →
      AdminMod.resolveTarget st { me with networks := me.networks ++ [n2] } (some n0) tgt
        = .dispatch (.chan me.uname n0.nname c) := by
  constructor
  · simp [AdminMod.resolveTarget, h1, h2, h3, h4, h5]
  · intro n2 hn2
    have h4' : findNetwork { me with networks := me.networks ++ [n2] } tgt = none := by
      simp [findNetwork, List.find?_eq_none, hn2] at h4 ⊢
      exact h4
    simp [AdminMod.resolveTarget, h1, h2, h3, h4', h5]

/-- C5 witness: alice's single-network channel resolves bare, and still
resolves after the second network is added. -/
theorem c5_bare_chan_amended_witness :
    AdminMod.resolveTarget { users := [uAliceOne] } uAliceOne (some nFreenode) "#znc"
      = .dispatch (.chan "alice" "freenode" chZnc) ∧
    AdminMod.resolveTarget { users := [uAliceOne] }
        { uAliceOne with networks := uAliceOne.networks ++ [nOftc] } (some nFreenode) "#znc"
      = .dispatch (.chan "alice" "freenode" chZnc) := by
  have h := c5_bare_chan_amended { users := [uAliceOne] } uAliceOne nFreenode "#znc" chZnc
    (by decide) (by decide) (by decide) (by decide) (by decide)
  exact ⟨h.1, h.2 nOftc (by decide)⟩

/-- C2, amended: the resolver is a first-match-wins scan of the
interpretations in the order the code consults them - the own-user
keyword, the token as a user name in the global directory, the
own-network keyword (when a current network exists), the token as a
network name of the caller's user, the token as a channel name on the
caller's current network, and only then the slash-split composite forms;
once one matches, later ones are never consulted. (The claim's original
order, with both self-keywords ahead of the directory lookup, is refuted
by c2_priority_counterexample; settings.cpp's resolver has no
self-keywords at all.) -/
theorem c2_priority_amended (st : Znc) (me : User) (cn : Option Network) (tgt : String) :
    AdminMod.resolveTarget st me cn tgt
      = (firstSome (adminResolveSteps st me cn tgt)).getD .passthrough := by
  unfold AdminMod.resolveTarget adminResolveSteps
  cases h1 : eqCI tgt "user"
  · cases h2 : findUser st tgt
    · cases h3 : eqCI tgt "network"
      · cases h4 : findNetwork me tgt
        · cases cn with
          | none =>
            cases h6 : AdminMod.compositeResolve st me none (splitDrop '/' tgt) <;>
              simp [h1, h2, h3, h4, h6, firstSome]
          | some n0 =>
            cases h5 : findChan n0 tgt
            · cases h6 : AdminMod.compositeResolve st me (some n0) (splitDrop '/' tgt) <;>
                simp [h1, h2, h3, h4, h5, h6, firstSome]
            · simp [h1, h2, h3, h4, h5, firstSome]
        · simp [h1, h2, h3, h4, firstSome]
      · cases cn with
        | none =>
          cases h4 : findNetwork me tgt
          · cases h6 : AdminMod.compositeResolve st me none (splitDrop '/' tgt) <;>
              simp [h1, h2, h3, h4, h6, firstSome]
          · simp [h1, h2, h3, h4, firstSome]
        | some n0 => simp [h1, h2, h3, firstSome]
    · simp [h1, h2, firstSome]
  · simp [h1, firstSome]

/-- bob with one network carrying #dev. -/
def uBob : User := { uname := "bob", networks := [{ nname := "bnet", chans := [{ cname := "#dev" }] }] }

/-- Directory with alice and bob. -/
def stAliceBob : Znc := { users := [uAliceOne, uBob] }

/-- C6. For a 2-segment address [A, B] whose first segment names a known
user that owns no network named B (and that missed every single-token
interpretation), the resolver of admin.cpp 2026-2048 behaves exactly as
the claim describes (specTwoSegChanSearch): B is searched as a channel
first on the caller's current network - only when A is the caller's own
user - then on the target user's single network when it owns exactly one;
zero or several networks without an earlier hit fail with the
ambiguous-or-unknown error instead of guessing. -/
theorem c6_two_segment_search (st : Znc) (me : User) (cn : Option Network)
    (tgt a b : String) (u : User)
    (h1 : eqCI tgt "user" = false)
    (h2 : findUser st tgt = none)
    (h3 : eqCI tgt "network" = false)
    (h4 : findNetwork me tgt = none)
    (h5 : ∀ n0, cn = some n0 → findChan n0 tgt = none)
    (hsplit : splitDrop '/' tgt = [a, b])
    (hu : findUser st a = some u)
    (hnet : findNetwork u b = none) :
    AdminMod.resolveTarget st me cn tgt = specTwoSegChanSearch me cn u b := by
  have hcomp : AdminMod.compositeResolve st me cn [a, b]
      = some (specTwoSegChanSearch me cn u b) := by
    unfold AdminMod.compositeResolve specTwoSegChanSearch
    simp only [hu, hnet]
    by_cases hid : u.uname = me.uname
    · cases cn with
      | none =>
        simp only [hid, if_true]
        cases hn : u.networks with
        | nil => simp
        | cons n1 rest =>
          cases rest with
          | nil => cases hc : findChan n1 b <;> simp [hc]
          | cons n2 rest2 => simp
      | some n0 =>
        cases hc0 : findChan n0 b with
        | some c => simp [hid, hc0]
        | none =>
          simp only [hid, if_true, hc0, Option.map_none, Option.bind_some]
          cases hn : u.networks with
          | nil => simp [hc0]
          | cons n1 rest =>
            cases rest with
            | nil => cases hc : findChan n1 b <;> simp [hc, hc0]
            | cons n2 rest2 => simp [hc0]
    · cases hn : u.networks with
      | nil => simp [hid]
      | cons n1 rest =>
        cases rest with
        | nil => cases hc : findChan n1 b <;> simp [hid, hc]
        | cons n2 rest2 => simp [hid]
  have h5' : (match cn with
      | some n0 => (findChan n0 tgt).map (fun c => (n0, c))
      | none => none) = none := by
    cases cn with
    | none => rfl
    | some n0 => simp [h5 n0 rfl]
  simp [AdminMod.resolveTarget, h1, h2, h3, h4, h5', hsplit, hcomp]

/-- C6 witness: alice addresses bob/#dev; bob owns exactly one network,
so the channel is found there. -/
theorem c6_two_segment_search_witness :
    AdminMod.resolveTarget stAliceBob uAliceOne (some nFreenode) "bob/#dev"
      = .dispatch (.chan "bob" "bnet" { cname := "#dev" }) := by
  have h := c6_two_segment_search stAliceBob uAliceOne (some nFreenode) "bob/#dev"
    "bob" "#dev" uBob (by decide) (by decide) (by decide) (by decide)
    (fun n0 hn0 => by cases hn0; decide) (by decide) (by decide) (by decide)
  rw [h]; decide

/-- The Get loop is the filter of the table by the (case-insensitive)
wildcard pattern, each match emitting its Get block; the found flag is
non-emptiness of the filter. -/
theorem getLoop_filter_eq (pat : String) (t : σ) (vars : List (AdminMod.AVar σ)) :
    AdminMod.getLoop pat t vars =
      ((vars.filter (fun v => wildCI v.name pat)).flatMap
        (fun v => emitVarLines v.name (v.varGet t)),
       !(vars.filter (fun v => wildCI v.name pat)).isEmpty) := by
  induction vars with
  | nil => simp [AdminMod.getLoop]
  | cons v vs ih =>
    cases h : wildCI v.name pat <;>
      simp [AdminMod.getLoop, h, ih, List.filter_cons]

/-- C8. OnGetCommand's complete behaviour: no argument emits exactly the
usage line (and, returning output only, touches nothing else); otherwise
every variable whose name glob-matches the pattern case-insensitively
(wildCI) contributes its "name = value" block - emitVarLines splits the
value on newlines into one line per element, with an explicit
"name = " line for an empty value - and an empty match set yields the
unknown-variable error. -/
theorem c8_get_characterization (vars : List (AdminMod.AVar σ)) (t : σ) (line : String) :
    AdminMod.OnGetCommand vars t line =
      (if token line 1 = "" then [Out.line "Usage: Get <variable>"]
       else if (vars.filter (fun v => wildCI v.name (token line 1))).isEmpty then
         [Out.line "Error: unknown variable"]
       else (vars.filter (fun v => wildCI v.name (token line 1))).flatMap
         (fun v => emitVarLines v.name (v.varGet t))) := by
  unfold AdminMod.OnGetCommand
  by_cases h0 : token line 1 = ""
  · simp [h0]
  · cases hf : (vars.filter (fun v => wildCI v.name (token line 1))).isEmpty with
    | true =>
      have hf' : vars.filter (fun v => wildCI v.name (token line 1)) = [] :=
        List.isEmpty_iff.mp hf
      simp [h0, hf, getLoop_filter_eq, hf']
    | false =>
      simp [h0, hf, getLoop_filter_eq]

/-- Fan-out compositionality of the settings-variant Set loop: an
appended table processes the first part, then the second from the state
the first left behind. -/
theorem setLoopV_append (me : User) (pat sVal : String)
    (xs ys : List (SettingsVariant.VVar σ)) (t : σ) :
    SettingsVariant.setLoop me pat sVal (xs ++ ys) t =
      (let r := SettingsVariant.setLoop me pat sVal xs t
       let r' := SettingsVariant.setLoop me pat sVal ys r.2.1
       (r.1 ++ r'.1, r'.2.1, r.2.2 || r'.2.2)) := by
  induction xs generalizing t with
  | nil => simp [SettingsVariant.setLoop]
  | cons v vs ih =>
    cases h : wildCI v.name pat <;> simp [SettingsVariant.setLoop, h, ih]

/-- One matching step of the settings-variant Set loop, phrased through
the setter's success flag. -/
theorem setLoopV_cons_match (me : User) (pat sVal : String)
    (v : SettingsVariant.VVar σ) (vs : List (SettingsVariant.VVar σ))
    (hm : wildCI v.name pat = true) (t : σ) :
    SettingsVariant.setLoop me pat sVal (v :: vs) t =
      (let s := v.setter me t sVal
       let step := if s.1 then emitVarLines v.name (v.getter s.2.1)
         else [Out.line ("Error: " ++ s.2.2)]
       let r := SettingsVariant.setLoop me pat sVal vs s.2.1
       (step ++ r.1, r.2.1, true)) := by
  cases hs : v.setter me t sVal with
  | mk ok p =>
    cases p with
    | mk t2 err => cases ok <;> simp [SettingsVariant.setLoop, hm, hs]

/-- C4. The Set fan-out of the settings variant (admin.cpp 3766-3799):
every matching variable's setter runs independently in registry order on
the state left by the previous matches; a failing setter contributes its
"Error: sError" line and neither aborts the processing of the remaining
table nor rolls back the state already produced; a successful setter's
value is re-read through the getter and re-emitted through emitVarLines -
the very block the Get loop emits for that variable (second conjunct). -/
theorem c4_set_fanout (me : User) (pat sVal : String) (v : SettingsVariant.VVar σ)
    (pre post : List (SettingsVariant.VVar σ)) (t : σ)
    (hm : wildCI v.name pat = true) :
    (SettingsVariant.setLoop me pat sVal (pre ++ v :: post) t =
      (let r1 := SettingsVariant.setLoop me pat sVal pre t
       let s := v.setter me r1.2.1 sVal
       let step := if s.1 then emitVarLines v.name (v.getter s.2.1)
         else [Out.line ("Error: " ++ s.2.2)]
       let r2 := SettingsVariant.setLoop me pat sVal post s.2.1
       (r1.1 ++ (step ++ r2.1), r2.2.1, true))) ∧
    (∀ t' : σ, SettingsVariant.getLoop pat t' [v]
       = (emitVarLines v.name (v.getter t'), true)) := by
  constructor
  · rw [setLoopV_append]
    simp only [setLoopV_cons_match me pat sVal v post hm]
    simp
  · intro t'
    simp [SettingsVariant.getLoop, hm]

/-- C4 witness: a non-admin modifier glob-hits MaxNetworks, whose setter
fails with "access denied"; the loop reports the error and leaves the
target untouched. -/
theorem c4_set_fanout_witness :
    SettingsVariant.setLoop uAlice "MaxNetworks" "5" [SettingsVariant.vvMaxNetworks] uBob
      = ([Out.line "Error: access denied"], uBob, true) := by
  have h := (c4_set_fanout (σ := User) uAlice "MaxNetworks" "5"
    SettingsVariant.vvMaxNetworks [] [] uBob (by decide)).1
  rw [List.nil_append] at h
  rw [h]
  decide

/-- C9. Restart and Shutdown (admin.cpp 1416-1433, 1444-1461) are the
only GlobalCmds whose bodies throw the fatal CException (the table lists
each command's verb with whether its body throws; the repository's only
two throw statements are those). Each invocation first attempts
WriteConfig; when the write fails and --force was not given, both emit
the error lines and do not terminate; when the write succeeds or --force
was given, both broadcast a message and signal termination. -/
theorem c9_fatal_commands :
    (∀ p ∈ adminGlobalCmdFatal, p.2 = true → p.1 = "Restart" ∨ p.1 = "Shutdown") ∧
    (∀ (env : ZncEnv) (args : String),
      (restartExec env args).attemptedWrite = true ∧
      (shutdownExec env args).attemptedWrite = true ∧
      (env.writeOk = false → eqCI (token args 0) "--force" = false →
        restartExec env args
          = { attemptedWrite := true,
              outs := [Out.line "Error: saving config failed",
                       Out.line "Aborting. Use --force to ignore."],
              broadcast := none, fatal := none } ∧
        shutdownExec env args
          = { attemptedWrite := true,
              outs := [Out.line "Error: saving config failed",
                       Out.line "Aborting. Use --force to ignore."],
              broadcast := none, fatal := none }) ∧
      ((env.writeOk = true ∨ eqCI (token args 0) "--force" = true) →
        (restartExec env args).fatal = some .restart ∧
        (restartExec env args).broadcast.isSome = true ∧
        (shutdownExec env args).fatal = some .shutdown ∧
        (shutdownExec env args).broadcast.isSome = true)) := by
  refine ⟨by decide, fun env args => ?_⟩
  unfold restartExec shutdownExec
  cases hw : env.writeOk <;> cases hf : eqCI (token args 0) "--force" <;>
    simp [hw, hf]

/-- C9 witness: a failed config write without --force aborts without
terminating; with --force the fatal signal is raised. -/
theorem c9_fatal_commands_witness :
    restartExec { writeOk := false } "byebye"
      = { attemptedWrite := true,
          outs := [Out.line "Error: saving config failed",
                   Out.line "Aborting. Use --force to ignore."],
          broadcast := none, fatal := none } ∧
    (shutdownExec { writeOk := false } "--force").fatal = some .shutdown := by
  refine ⟨((c9_fatal_commands.2 { writeOk := false } "byebye").2.2.1 rfl (by decide)).1, ?_⟩
  exact ((c9_fatal_commands.2 { writeOk := false } "--force").2.2.2 (Or.inr (by decide))).2.2.1

/-! ## List-variable round-trip lemmas (for claim C7) -/

/-- A chunk without the separator is kept whole by the splitter core. -/
theorem splitKeep_of_not_mem (sep : Char) (cs : List Char) (h : sep ∉ cs) :
    splitKeep sep cs = [cs] := by
  induction cs with
  | nil => rfl
  | cons c cs ih =>
    have h1 : ¬(c = sep) := fun hc => h (by simp [hc])
    have h2 : sep ∉ cs := fun hm => h (by simp [hm])
    simp [splitKeep, ih h2, h1]

/-- Splitting a separator-free chunk followed by a separator peels the
chunk off. -/
theorem splitKeep_append (sep : Char) (xs cs : List Char) (h : sep ∉ xs) :
    splitKeep sep (xs ++ sep :: cs) = xs :: splitKeep sep cs := by
  induction xs with
  | nil => simp [splitKeep]
  | cons c xs ih =>
    have h1 : ¬(c = sep) := fun hc => h (by simp [hc])
    have h2 : sep ∉ xs := fun hm => h (by simp [hm])
    simp [splitKeep, ih h2, h1]

/-- Splitting undoes joining for lists of non-empty, separator-free
strings (the List-variable canonical form: newline-joined lines). -/
theorem splitDrop_joinSep (sep : Char) (l : List String)
    (h : ∀ s ∈ l, s ≠ "" ∧ sep ∉ s.data) :
    splitDrop sep (joinSep sep l) = l := by
  induction l with
  | nil => rfl
  | cons x xs ih =>
    have hx := h x (by simp)
    have hxd : x.data ≠ [] := by
      intro hE
      exact hx.1 (String.ext hE)
    cases xs with
    | nil =>
      simp [joinSep, splitDrop, splitKeep_of_not_mem sep x.data hx.2, hxd]
    | cons y ys =>
      have hdata : (joinSep sep (x :: y :: ys)).data
          = x.data ++ sep :: (joinSep sep (y :: ys)).data := by
        simp [joinSep, String.data_append]
      have ihtail := ih (fun s hs => h s (by simp [hs]))
      simp only [splitDrop] at ihtail ⊢
      rw [hdata, splitKeep_append sep _ _ hx.2]
      simp [List.filter_cons, hxd]
      simpa using ihtail

/-- A separator-free, non-empty string splits to itself. -/
theorem splitDrop_single (sep : Char) (s : String) (h0 : s ≠ "") (hs : sep ∉ s.data) :
    splitDrop sep s = [s] := by
  have h := splitDrop_joinSep sep [s] (by
    intro t ht
    simp at ht
    subst ht
    exact ⟨h0, hs⟩)
  simpa [joinSep] using h

/-- The emission block on a joined list of non-empty, newline-free lines:
one line per element, or the explicit empty line. -/
theorem emitVarLines_joinSep (name : String) (l : List String)
    (h : ∀ s ∈ l, s ≠ "" ∧ '\n' ∉ s.data) :
    emitVarLines name (joinSep '\n' l)
      = (if l.isEmpty then [Out.line (name ++ " = ")]
         else l.map (fun s => Out.line (name ++ " = " ++ s))) := by
  unfold emitVarLines
  rw [splitDrop_joinSep '\n' l h]
  cases l <;> simp

/-- Membership after a sorted-set insertion. -/
theorem mem_setInsert (s a : String) (l : List String) (h : s ∈ setInsert a l) :
    s = a ∨ s ∈ l := by
  induction l with
  | nil => simpa [setInsert] using h
  | cons z t ih =>
    by_cases h1 : a = z
    · rw [setInsert, if_pos h1] at h
      exact Or.inr h
    · by_cases h2 : ltStr a z = true
      · rw [setInsert, if_neg h1, if_pos h2] at h
        simpa using h
      · rw [setInsert, if_neg h1, if_neg h2] at h
        rcases List.mem_cons.mp h with hz | hrec
        · exact Or.inr (by simp [hz])
        · rcases ih hrec with hax | hmem
          · exact Or.inl hax
          · exact Or.inr (by simp [hmem])

/-- Sorted-set insertion never yields the empty list. -/
theorem setInsert_ne_nil (s : String) (l : List String) : setInsert s l ≠ [] := by
  cases l with
  | nil => simp [setInsert]
  | cons z t =>
    rw [setInsert]
    split
    · simp
    · split <;> simp

/-- C7, counterexample. The claim asserts call order for every List-typed
variable. The Allow variable (admin.cpp 357-375) stores its hosts in an
SCString - a sorted std::set - so "Set Allow zz" then "Set Allow aa"
followed by "Get Allow" emits aa before zz: sorted order, not call order
(the reverse). -/
theorem c7_list_call_order_counterexample :
    (AdminMod.OnGetCommand [AdminMod.advAllow]
        ((AdminMod.OnSetCommand [AdminMod.advAllow]
          ((AdminMod.OnSetCommand [AdminMod.advAllow] uAlice "Set Allow zz").2)
          "Set Allow aa").2)
        "Get Allow")
      = [Out.line "Allow = aa", Out.line "Allow = zz"] ∧
    (AdminMod.OnGetCommand [AdminMod.advAllow]
        ((AdminMod.OnSetCommand [AdminMod.advAllow]
          ((AdminMod.OnSetCommand [AdminMod.advAllow] uAlice "Set Allow zz").2)
          "Set Allow aa").2)
        "Get Allow")
      ≠ [Out.line "Allow = zz", Out.line "Allow = aa"] := by
  decide

/-- C7, amended. Set on a List-typed variable appends rather than
replaces, and Reset restores the documented default: for the
vector-backed Motd (admin.cpp 177-192), Set a; Set b; Get emits a then b
in call order, and Reset; Get emits the single explicit empty line; for
the sorted-set-backed Allow (admin.cpp 357-375), Set x; Set y; Get emits
the accumulated hosts in the set's sorted order (setInsert), not call
order. Values are taken as the parsed tokens of the issued lines
(non-empty, without newlines; Allow values also without spaces, as a
spaced value would be split into several hosts). -/
theorem c7_list_accumulation_amended
    (lineA lineB lineX lineY a b x y : String)
    (hA1 : token lineA 1 = "Motd") (hA2 : tokenRest lineA 2 = a)
    (hB1 : token lineB 1 = "Motd") (hB2 : tokenRest lineB 2 = b)
    (ha : a ≠ "") (hb : b ≠ "") (haN : '\n' ∉ a.data) (hbN : '\n' ∉ b.data)
    (hX1 : token lineX 1 = "Allow") (hX2 : tokenRest lineX 2 = x)
    (hY1 : token lineY 1 = "Allow") (hY2 : tokenRest lineY 2 = y)
    (hx : x ≠ "") (hy : y ≠ "") (hxN : '\n' ∉ x.data) (hyN : '\n' ∉ y.data)
    (hxS : ' ' ∉ x.data) (hyS : ' ' ∉ y.data) :
    (AdminMod.OnGetCommand [AdminMod.advMotd]
        ((AdminMod.OnSetCommand [AdminMod.advMotd]
          ((AdminMod.OnSetCommand [AdminMod.advMotd] ({} : Znc) lineA).2) lineB).2)
        "Get Motd"
      = [Out.line ("Motd = " ++ a), Out.line ("Motd = " ++ b)]) ∧
    (AdminMod.OnGetCommand [AdminMod.advMotd]
        ((AdminMod.OnResetCommand [AdminMod.advMotd]
          ((AdminMod.OnSetCommand [AdminMod.advMotd]
            ((AdminMod.OnSetCommand [AdminMod.advMotd] ({} : Znc) lineA).2) lineB).2)
          "Reset Motd").2)
        "Get Motd"
      = [Out.line "Motd = "]) ∧
    (AdminMod.OnGetCommand [AdminMod.advAllow]
        ((AdminMod.OnSetCommand [AdminMod.advAllow]
          ((AdminMod.OnSetCommand [AdminMod.advAllow] ({ uname := "alice" } : User) lineX).2)
          lineY).2)
        "Get Allow"
      = (setInsert y (setInsert x [])).map (fun s => Out.line ("Allow = " ++ s))) := by
  have wm : wildCI "Motd" "Motd" = true := by decide
  have wa : wildCI "Allow" "Allow" = true := by decide
  have gm : token "Get Motd" 1 = "Motd" := by decide
  have ga : token "Get Allow" 1 = "Allow" := by decide
  have rm : token "Reset Motd" 1 = "Motd" := by decide
  have e1 : (AdminMod.OnSetCommand [AdminMod.advMotd] ({} : Znc) lineA).2
      = { motd := [a] } := by
    simp [AdminMod.OnSetCommand, AdminMod.setLoop, AdminMod.advMotd, hA1, hA2, ha, wm]
  have e2 : (AdminMod.OnSetCommand [AdminMod.advMotd] ({ motd := [a] } : Znc) lineB).2
      = { motd := [a, b] } := by
    simp [AdminMod.OnSetCommand, AdminMod.setLoop, AdminMod.advMotd, hB1, hB2, hb, wm]
  have hclean : ∀ s ∈ [a, b], s ≠ "" ∧ '\n' ∉ s.data := by
    intro s hs
    rcases List.mem_cons.mp hs with rfl | hs2
    · exact ⟨ha, haN⟩
    · rcases List.mem_cons.mp hs2 with rfl | hs3
      · exact ⟨hb, hbN⟩
      · cases hs3
  have hj := emitVarLines_joinSep "Motd" [a, b] hclean
  refine ⟨?_, ?_, ?_⟩
  · rw [e1, e2]
    simp [AdminMod.OnGetCommand, AdminMod.getLoop, AdminMod.advMotd, gm, wm, hj]
  · rw [e1, e2]
    have r1 : (AdminMod.OnResetCommand [AdminMod.advMotd] ({ motd := [a, b] } : Znc)
        "Reset Motd").2 = ({} : Znc) := by
      simp [AdminMod.OnResetCommand, AdminMod.resetLoop, AdminMod.advMotd, rm, wm]
    rw [r1]
    decide
  · have hsx := splitDrop_single ' ' x hx hxS
    have hsy := splitDrop_single ' ' y hy hyS
    have f1 : (AdminMod.OnSetCommand [AdminMod.advAllow] ({ uname := "alice" } : User)
        lineX).2 = { uname := "alice", allowedHosts := setInsert x [] } := by
      simp [AdminMod.OnSetCommand, AdminMod.setLoop, AdminMod.advAllow, hX1, hX2, hx,
        wa, hsx]
    have f2 : (AdminMod.OnSetCommand [AdminMod.advAllow]
        ({ uname := "alice", allowedHosts := setInsert x [] } : User) lineY).2
        = { uname := "alice", allowedHosts := setInsert y (setInsert x []) } := by
      simp [AdminMod.OnSetCommand, AdminMod.setLoop, AdminMod.advAllow, hY1, hY2, hy,
        wa, hsy]
    have hcl : ∀ s ∈ setInsert y (setInsert x []), s ≠ "" ∧ '\n' ∉ s.data := by
      intro s hs
      rcases mem_setInsert s y _ hs with rfl | hs2
      · exact ⟨hy, hyN⟩
      · rcases mem_setInsert s x _ hs2 with rfl | hs3
        · exact ⟨hx, hxN⟩
        · cases hs3
    have hja := emitVarLines_joinSep "Allow" (setInsert y (setInsert x [])) hcl
    have hne : (setInsert y (setInsert x [])).isEmpty = false := by
      cases hE : (setInsert y (setInsert x [])).isEmpty
      · rfl
      · exact absurd (List.isEmpty_iff.mp hE) (setInsert_ne_nil y (setInsert x []))
    rw [f1, f2]
    simp [AdminMod.OnGetCommand, AdminMod.getLoop, AdminMod.advAllow, ga, wa, hja, hne]

/-- C7 witness: Motd accumulates in call order; Allow emits sorted. -/
theorem c7_list_accumulation_amended_witness :
    (AdminMod.OnGetCommand [AdminMod.advMotd]
        ((AdminMod.OnSetCommand [AdminMod.advMotd]
          ((AdminMod.OnSetCommand [AdminMod.advMotd] ({} : Znc) "Set Motd hello").2)
          "Set Motd world").2)
        "Get Motd"
      = [Out.line "Motd = hello", Out.line "Motd = world"]) ∧
    (AdminMod.OnGetCommand [AdminMod.advAllow]
        ((AdminMod.OnSetCommand [AdminMod.advAllow]
          ((AdminMod.OnSetCommand [AdminMod.advAllow] ({ uname := "alice" } : User)
            "Set Allow zz").2)
          "Set Allow aa").2)
        "Get Allow"
      = [Out.line "Allow = aa", Out.line "Allow = zz"]) := by
  have h := c7_list_accumulation_amended "Set Motd hello" "Set Motd world" "Set Allow zz"
    "Set Allow aa" "hello" "world" "zz" "aa"
    (by decide) (by decide) (by decide) (by decide) (by decide) (by decide)
    (by decide) (by decide) (by decide) (by decide) (by decide) (by decide)
    (by decide) (by decide) (by decide) (by decide) (by decide) (by decide)
  refine ⟨h.1, ?_⟩
  rw [h.2.2]
  decide
